import Mathlib

/-!
Shallow embedding of `plaso/lib/putils.py` (Python 2).

The hex-dump renderer (`GetHexDump`, `GetHexDumpLine`, `GetHexDumpStream`,
`GetEventData`), the plugin-to-parser resolver (`GetParsersFromPlugins`),
the registry iterator (`_FindClasses`) and the parser selector
(`FindAllParsers`) are translated from the source.  External collaborators
(the filter-expression parser in `plaso.lib.utils`, `pfile.OpenPFile`, the
class registries) are modelled as explicit parameters, matching how the
source consumes their values.  Python exceptions become `Except`, byte
strings become `List Nat` (each element `< 256`), and Python's dynamic
typing of the resolver's `exclude_strings` argument becomes the `PyVal`
sum type.
-/

set_option maxRecDepth 4000

/-! ### Hex rendering primitives (binascii.hexlify / unhexlify, '%x' format) -/

/-- One lowercase hexadecimal digit, as produced by `binascii.hexlify`
and Python's `'{0:07x}'` format. -/
def hexDigit (n : Nat) : Char :=
  Char.ofNat (if n < 10 then 48 + n else 87 + n)

/-- `binascii.hexlify` of a single byte: two lowercase hex characters. -/
def toHexPair (b : Nat) : List Char :=
  [hexDigit (b / 16), hexDigit (b % 16)]

/-- `binascii.hexlify(data)`: the concatenation of the two-character hex
renderings of each byte. -/
def hexlify (data : List Nat) : List Char :=
  (data.map toHexPair).flatten

/-- Value of one hex character, as accepted by `binascii.unhexlify`
(upper or lower case); `none` models the `TypeError` raised on a
non-hexadecimal character. -/
def hexVal (c : Char) : Option Nat :=
  if 48 ≤ c.toNat ∧ c.toNat ≤ 57 then some (c.toNat - 48)
  else if 97 ≤ c.toNat ∧ c.toNat ≤ 102 then some (c.toNat - 87)
  else if 65 ≤ c.toNat ∧ c.toNat ≤ 70 then some (c.toNat - 55)
  else none

/-- `binascii.unhexlify` applied to a two-character slice: `none` models
the `TypeError` raised on a non-hex character or an odd-length string
(the only shapes `GetHexDumpLine` ever passes are length-2 slices from a
line of at least 32 characters). -/
def unhexPair : List Char → Option Nat
  | [c1, c2] =>
    match hexVal c1, hexVal c2 with
    | some hi, some lo => some (hi * 16 + lo)
    | _, _ => none
  | _ => none

/-- The ASCII-column rendering of one hex pair, translated from the
`try/except TypeError` block of `GetHexDumpLine`: a failed `unhexlify`
yields `data = '.'` (ordinal 46, inside the printable range), and a
decoded byte is shown literally exactly when `31 < ord(data) < 128`. -/
def renderPair (pair : List Char) : Char :=
  match unhexPair pair with
  | none => '.'
  | some b => if 31 < b ∧ b < 128 then Char.ofNat b else '.'

/-- Hex digits of `n`, most significant first, with a fuel argument to
make the recursion structural; `natToHex` always supplies enough fuel. -/
def natToHexCore : Nat → Nat → List Char
  | 0, _ => []
  | fuel + 1, n =>
    if n < 16 then [hexDigit n]
    else natToHexCore fuel (n / 16) ++ [hexDigit (n % 16)]

/-- Hex digits of `n`, most significant first (no leading zeros). -/
def natToHex (n : Nat) : List Char :=
  natToHexCore (n + 1) n

/-- Left padding with `'0'` up to width `w` (no-op when already wider). -/
def zeroPad (w : Nat) (s : List Char) : List Char :=
  List.replicate (w - s.length) '0' ++ s

/-- Python `'{0:07x}'.format(v)`: zero-padded to a total width of 7; a
negative value carries a leading minus sign inside the width. -/
def intToHex7 (v : Int) : List Char :=
  if v < 0 then '-' :: zeroPad 6 (natToHex (-v).toNat)
  else zeroPad 7 (natToHex v.toNat)

/-! ### GetHexDumpLine / GetHexDump / GetHexDumpStream -/

/-- The eight space-terminated 4-hex-character chunks of a line,
from the first loop of `GetHexDumpLine` (`'%s ' % line[bit*4:bit*4+4]`). -/
def lineHexChunks (line : List Char) : List Char :=
  ((List.range 8).map (fun bit => (line.drop (bit * 4)).take 4 ++ [' '])).flatten

/-- The 16-character ASCII column of a line, from the second loop of
`GetHexDumpLine` (pairs `line[bit*2:bit*2+2]`). -/
def lineAscii (line : List Char) : List Char :=
  (List.range 16).map (fun bit => renderPair ((line.drop (bit * 2)).take 2))

/-- `GetHexDumpLine(line, orig_ofs, entry_nr)`: offset field
`'{0:07x}: '`, then the hex chunks, then the ASCII column. -/
def GetHexDumpLine (line : List Char) (orig_ofs : Int) (entry_nr : Nat) : List Char :=
  intToHex7 (orig_ofs + (entry_nr : Int) * 16) ++ [':', ' ']
    ++ lineHexChunks line ++ lineAscii line

/-- `GetHexDump(data, offset)` (Python 2 semantics: `/` on ints is floor
division).  Full lines slice `hexdata[32*entry_nr : 32*entry_nr+32]`.
The trailing-partial-line branch computes `breakpoint = len(hexdata)/32`
and slices `hexdata[breakpoint:]` — the line count used as a character
index — and pads with `' ' * (32 - len(leftovers))`, where a negative
repeat count yields the empty string, exactly like truncated `Nat`
subtraction here. -/
def GetHexDump (data : List Nat) (offset : Int) : String :=
  let hexdata := hexlify data
  let full := (List.range (hexdata.length / 32)).map fun entry_nr =>
    GetHexDumpLine ((hexdata.drop (32 * entry_nr)).take 32) offset entry_nr
  let rest :=
    if hexdata.length % 32 ≠ 0 then
      let breakpoint := hexdata.length / 32
      let leftovers := hexdata.drop breakpoint
      let pad := List.replicate (32 - leftovers.length) ' '
      [GetHexDumpLine (leftovers ++ pad) offset breakpoint]
    else []
  String.mk (List.intercalate ['\n'] (full ++ rest))

/-- `GetHexDumpStream(fh, offset, length)`: `fh.seek(offset)` then
`fh.read(int(length) * 16)`, modelled on the file contents as a byte
list (a negative seek offset would raise `IOError` in CPython; the
claims only exercise non-negative offsets). -/
def GetHexDumpStream (fh : List Nat) (offset : Int) (length : Nat) : String :=
  GetHexDump ((fh.drop offset.toNat).take (length * 16)) offset

/-! ### GetEventData -/

/-- Opaque stand-in for `evt.pathspec` (only ever forwarded, via
`ToProto()`, to the byte-source opener). -/
structure PathSpec where
  proto : String
deriving DecidableEq

/-- The fields of the event object that `GetEventData` probes:
`hasattr(evt, 'pathspec')` is `pathspec = some _`, and
`getattr(evt, 'offset', 0)` is `offset.getD 0`. -/
structure EventObject where
  pathspec : Option PathSpec
  offset : Option Int
deriving DecidableEq

/-- The read-offset computation inlined in `GetEventData`:
`if offset - before > 0: offset -= before` (otherwise the offset is
left unchanged — it is not clamped to `0`). -/
def eventReadOffset (offset before : Int) : Int :=
  if offset - before > 0 then offset - before else offset

/-- `GetEventData(evt, fscache, before, length)`.  The byte-source
opener `pfile.OpenPFile(evt.pathspec.ToProto(), fscache=fscache)` is an
external collaborator, modelled as the `openPFile` parameter; an
`IOError` from it is the `Except.error` case and becomes the
`u'Error opening file: %s' % e` result. -/
def GetEventData (evt : Option EventObject)
    (openPFile : PathSpec → Except String (List Nat))
    (before : Int) (length : Nat) : String :=
  match evt with
  | none => ""
  | some e =>
    match e.pathspec with
    | none => ""
    | some ps =>
      match openPFile ps with
      | .error err => "Error opening file: " ++ err
      | .ok fh =>
        GetHexDumpStream fh (eventReadOffset (e.offset.getD 0) before) length

/-! ### Registry, plugins, resolver, selector -/

/-- An instantiated parser object; the selector only reads its
`parser_name` attribute. -/
structure Parser where
  parser_name : String
deriving DecidableEq

/-- One entry of `parser.BaseParser.classes`: a registry key together
with the outcome of calling the registered class with
`(pre_obj, config)` — `Except.error` models a raised construction
exception. -/
structure ParserClass where
  name : String
  construct : Except String Parser

/-- One entry of `plugin.BasePlugin.classes`: a plugin name and its
`parent_class` attribute (Python `None` is modelled as `""`, which is
equally falsy in the `if parent and ...` test). -/
structure Plugin where
  name : String
  parent_class : String
deriving DecidableEq

/-- `_FindClasses(class_object, *args)`: instantiate every registered
class in registry order; the `try/except` logs and re-raises, so the
first construction failure aborts the whole enumeration. -/
def _FindClasses : List ParserClass → Except String (List Parser)
  | [] => .ok []
  | c :: rest =>
    match c.construct with
    | .error e => .error e
    | .ok p =>
      match _FindClasses rest with
      | .error e => .error e
      | .ok ps => .ok (p :: ps)

/-- The dynamic value passed as `exclude_strings`: Python's `None`, a
list or tuple of strings, a string, or an integer. -/
inductive PyVal where
  | noneV : PyVal
  | listV : List String → PyVal
  | tupleV : List String → PyVal
  | strV : String → PyVal
  | intV : Int → PyVal
deriving DecidableEq

/-- Python truthiness of the modelled values. -/
def pyTruthy : PyVal → Bool
  | .noneV => false
  | .listV l => decide (l ≠ [])
  | .tupleV l => decide (l ≠ [])
  | .strV s => decide (s ≠ "")
  | .intV n => decide (n ≠ 0)

/-- Python `type(x) in (tuple, list)`. -/
def isTupleOrList : PyVal → Bool
  | .listV _ => true
  | .tupleV _ => true
  | _ => false

/-- Does `pat` occur at the head of `s`? (helper for substring search) -/
def listStarts : List Char → List Char → Bool
  | _, [] => true
  | [], _ :: _ => false
  | a :: as, b :: bs => a == b && listStarts as bs

/-- Substring occurrence, the semantics of Python's `x in s` on `str`. -/
def strContainsSub : List Char → List Char → Bool
  | [], pat => listStarts [] pat
  | a :: t, pat => listStarts (a :: t) pat || strContainsSub t pat

/-- Python `x in exclude_strings`.  On an `int` the operator would raise
`TypeError`; in the source that branch is unreachable because the test
is guarded by `exclude_strings and ...` after the tuple/list shape
check, so the value returned there is immaterial. -/
def pyIn (x : String) : PyVal → Bool
  | .listV l => l.contains x
  | .tupleV l => l.contains x
  | .strV s => strContainsSub s.data x.data
  | .noneV => false
  | .intV _ => false

/-- `GetParsersFromPlugins(filter_strings, exclude_strings)` against the
plugin registry: early return on an empty include list (`if not
filter_strings`), early return when `exclude_strings` is truthy but not
a tuple or list, then one pass over `filter_strings` appending each
found plugin's `parent_class` when it is truthy, not already in
`filter_strings`, and not already in the result. -/
def GetParsersFromPlugins (filter_strings : List String) (exclude_strings : PyVal)
    (plugins : List Plugin) : List String :=
  if filter_strings = [] then []
  else if pyTruthy exclude_strings && !isTupleOrList exclude_strings then []
  else
    filter_strings.foldl
      (fun parser_list parser_include =>
        match plugins.find? (fun pl => pl.name == parser_include) with
        | none => parser_list
        | some plugin_cls =>
          if pyTruthy exclude_strings && pyIn parser_include exclude_strings then
            parser_list
          else
            let parent := plugin_cls.parent_class
            if parent ≠ "" ∧ parent ∉ filter_strings ∧ parent ∉ parser_list then
              parser_list ++ [parent]
            else parser_list)
      []

/-- The include list after `filter_include.extend(GetParsersFromPlugins(
filter_include, filter_exclude))` in `FindAllParsers` (the exclude list
is passed as a Python list). -/
def extendedInclude (filter_include filter_exclude : List String)
    (plugins : List Plugin) : List String :=
  filter_include ++
    GetParsersFromPlugins filter_include (PyVal.listV filter_exclude) plugins

/-- The per-parser selection rule of `FindAllParsers`: pass-through when
both filter lists are empty (`if not (filter_exclude or
filter_include)`), otherwise membership of the lowercased parser name
in the include list, with membership in the exclude list trumping it. -/
def selectParser (filter_include filter_exclude : List String)
    (parser_obj : Parser) : Bool :=
  if filter_exclude = [] ∧ filter_include = [] then true
  else
    let parser_name := parser_obj.parser_name.toLower
    if parser_name ∈ filter_exclude then false
    else decide (parser_name ∈ filter_include)

/-- `FindAllParsers(pre_obj, config, parser_filter_string)`, taking the
output `(filter_include, filter_exclude)` of the external
`utils.GetParserListsFromString` directly, plus the plugin and parser
registries.  Construction arguments `(pre_obj, config)` are already
folded into each registry entry's `construct` outcome.  The result is
the `results` dict: a single `'all'` key holding the selected parsers
in registry enumeration order; a construction failure propagates. -/
def FindAllParsers (filter_include filter_exclude : List String)
    (plugins : List Plugin) (registry : List ParserClass) :
    Except String (List (String × List Parser)) :=
  let fi := extendedInclude filter_include filter_exclude plugins
  match _FindClasses registry with
  | .error e => .error e
  | .ok parsers => .ok [("all", parsers.filter (selectParser fi filter_exclude))]

/-! ### Concrete instances used by witnesses and counterexamples -/

/-- Byte values of an ASCII string (the claims' concrete buffers). -/
def strBytes (s : String) : List Nat := s.data.map Char.toNat

def abcBytes : List Nat := strBytes "ABCDEFGHIJKLMNOP"

def twentyBytes : List Nat := strBytes "ABCDEFGHIJKLMNOPQRST"

def demoFile : List Nat := List.range 32

def demoEvent : EventObject := ⟨some ⟨"demo"⟩, some 5⟩

def demoOpen : PathSpec → Except String (List Nat) := fun _ => .ok demoFile

def demoOpenErr : PathSpec → Except String (List Nat) := fun _ => .error "boom"

def skypePlugins : List Plugin := [⟨"skype", "sqliteparser"⟩]

def demoRegistry : List ParserClass :=
  [⟨"SQLiteParser", .ok ⟨"sqliteparser"⟩⟩, ⟨"WinRegParser", .ok ⟨"winreg"⟩⟩]

def demoParsers : List Parser := [⟨"sqliteparser"⟩, ⟨"winreg"⟩]

def noPsEvent : EventObject := ⟨none, some 3⟩

def demoBytes16 : List Nat :=
  [0, 1, 30, 31, 32, 46, 65, 90, 97, 122, 126, 127, 128, 200, 255, 10]

def goodPre : List ParserClass := [⟨"Good", .ok ⟨"good"⟩⟩]

def badClass : ParserClass := ⟨"Bad", .error "boom"⟩

def postClasses : List ParserClass := [⟨"Later", .ok ⟨"later"⟩⟩]

/-! ### Helper lemmas -/

/-- `unhexlify` inverts `hexlify` on a single hex digit. -/
lemma hexVal_hexDigit : ∀ n : Fin 16, hexVal (hexDigit n.val) = some n.val := by decide

/-- `unhexlify` inverts `hexlify` on a single byte. -/
lemma unhexPair_toHexPair (b : Nat) (hb : b < 256) : unhexPair (toHexPair b) = some b := by
  have h1 : b / 16 < 16 := by omega
  have h2 : b % 16 < 16 := by omega
  have e1 : hexVal (hexDigit (b / 16)) = some (b / 16) := hexVal_hexDigit ⟨b / 16, h1⟩
  have e2 : hexVal (hexDigit (b % 16)) = some (b % 16) := hexVal_hexDigit ⟨b % 16, h2⟩
  simp only [toHexPair, unhexPair]
  rw [e1, e2]
  show some (b / 16 * 16 + b % 16) = some b
  have : b / 16 * 16 + b % 16 = b := by omega
  rw [this]

/-- The ASCII column renders a hexlified byte by the printable-range rule. -/
lemma renderPair_toHexPair (b : Nat) (hb : b < 256) :
    renderPair (toHexPair b) = if 31 < b ∧ b < 128 then Char.ofNat b else '.' := by
  simp only [renderPair]
  rw [unhexPair_toHexPair b hb]

lemma hexlify_cons (b : Nat) (rest : List Nat) :
    hexlify (b :: rest) = hexDigit (b / 16) :: hexDigit (b % 16) :: hexlify rest := rfl

/-- The two-character slice of `hexlify data` at character offset `i * 2`
is the hex pair of byte `i`. -/
lemma hexlify_slice : ∀ (data : List Nat) (i : Nat), i < data.length →
    ((hexlify data).drop (i * 2)).take 2 = toHexPair (data.getD i 0) := by
  intro data
  induction data with
  | nil => intro i h; simp at h
  | cons b rest ih =>
    intro i h
    cases i with
    | zero => rfl
    | succ j =>
      rw [hexlify_cons]
      have h2 : (j + 1) * 2 = j * 2 + 1 + 1 := by ring
      rw [h2, List.drop_succ_cons, List.drop_succ_cons, List.getD_cons_succ]
      refine ih j ?_
      simp only [List.length_cons] at h
      omega

lemma map_congr_mem {α β : Type} {f g : α → β} :
    ∀ l : List α, (∀ a ∈ l, f a = g a) → l.map f = l.map g := by
  intro l
  induction l with
  | nil => intro _; rfl
  | cons a t ih =>
    intro h
    simp only [List.map_cons]
    rw [h a (List.mem_cons_self a t), ih (fun b hb => h b (List.mem_cons_of_mem a hb))]

lemma range_map_getD {α β : Type} (f : α → β) (d : α) :
    ∀ l : List α, (List.range l.length).map (fun i => f (l.getD i d)) = l.map f := by
  intro l
  induction l with
  | nil => rfl
  | cons a t ih =>
    rw [List.length_cons, List.range_succ_eq_map, List.map_cons, List.map_map]
    have hfun : ((fun i => f ((a :: t).getD i d)) ∘ Nat.succ) = fun i => f (t.getD i d) := by
      funext i
      simp [Function.comp, List.getD_cons_succ]
    rw [hfun, ih]
    simp [List.getD_cons_zero]

lemma getD_mem {α : Type} : ∀ (l : List α) (i : Nat) (d : α), i < l.length → l.getD i d ∈ l := by
  intro l
  induction l with
  | nil => intro i d h; simp at h
  | cons a t ih =>
    intro i d h
    cases i with
    | zero => simp
    | succ j =>
      rw [List.getD_cons_succ]
      refine List.mem_cons_of_mem a (ih j d ?_)
      simp only [List.length_cons] at h
      omega

/-- With enough fuel, a value below `16 ^ k` has at most `k` hex digits. -/
lemma natToHexCore_length (fuel : Nat) : ∀ n k : Nat, n < 16 ^ k → 0 < k → k ≤ fuel →
    (natToHexCore fuel n).length ≤ k := by
  induction fuel with
  | zero => intro n k _ hk hkf; omega
  | succ f ih =>
    intro n k hn hk hkf
    by_cases h16 : n < 16
    · simp [natToHexCore, h16]
      omega
    · have hk2 : 2 ≤ k := by
        rcases Nat.lt_or_ge k 2 with h | h
        · have hk1 : k = 1 := by omega
          subst hk1
          rw [pow_one] at hn
          omega
        · exact h
      obtain ⟨k', rfl⟩ : ∃ k', k = k' + 1 := ⟨k - 1, by omega⟩
      have hdiv : n / 16 < 16 ^ k' := by
        rw [Nat.div_lt_iff_lt_mul (by norm_num)]
        calc n < 16 ^ (k' + 1) := hn
          _ = 16 ^ k' * 16 := by ring
      have hrec := ih (n / 16) k' hdiv (by omega) (by omega)
      simp only [natToHexCore, h16, if_false, List.length_append, List.length_singleton]
      omega

lemma natToHex_length_le7 (n : Nat) (h : n < 16 ^ 7) : (natToHex n).length ≤ 7 := by
  unfold natToHex
  by_cases h16 : n < 16
  · simp [natToHexCore, h16]
  · exact natToHexCore_length (n + 1) n 7 h (by norm_num) (by omega)

/-- `'{0:07x}'` yields exactly seven characters for offsets below `16 ^ 7`. -/
lemma intToHex7_length (v : Int) (h0 : 0 ≤ v) (h7 : v < 16 ^ 7) : (intToHex7 v).length = 7 := by
  unfold intToHex7
  rw [if_neg (by omega)]
  have e : (16 : Int) ^ 7 = 268435456 := by norm_num
  rw [e] at h7
  have hnat : v.toNat < 16 ^ 7 := by
    have e2 : (16 : Nat) ^ 7 = 268435456 := by norm_num
    omega
  have hlen := natToHex_length_le7 v.toNat hnat
  simp only [zeroPad, List.length_append, List.length_replicate]
  omega

/-! ### Claim theorems -/

/-- Claim C10: `GetHexDump` applied to an empty byte buffer returns the
empty string for every origin offset: no lines, no offset header, no
trailing newline. -/
theorem c10_theorem (offset : Int) : GetHexDump [] offset = "" := rfl

/-- Claim C3, counterexample: on the 16 printable bytes
`"ABCDEFGHIJKLMNOP"` at origin 0 the hex chunks are NOT
`4950 4a4b 4c4d 4e4f` as the claim states (hexlify pairs bytes as
`494a 4b4c 4d4e 4f50`). -/
theorem c3_counterexample :
    GetHexDump abcBytes 0 ≠
      "0000000: 4142 4344 4546 4748 4950 4a4b 4c4d 4e4f ABCDEFGHIJKLMNOP" := by
  decide

/-- Claim C3, amended: the dump of `"ABCDEFGHIJKLMNOP"` at origin 0 is
one line with offset field `0000000: `, the eight chunks
`4142 4344 4546 4748 494a 4b4c 4d4e 4f50` and ASCII column
`ABCDEFGHIJKLMNOP`; every line starts with the `'{0:07x}'` rendering of
`origin_offset + 16 * lineIndex`, which is exactly 7 zero-padded hex
digits whenever that value is below `16 ^ 7`. -/
theorem c3_theorem :
    GetHexDump abcBytes 0 =
      "0000000: 4142 4344 4546 4748 494a 4b4c 4d4e 4f50 ABCDEFGHIJKLMNOP" ∧
    (∀ (line : List Char) (ofs : Int) (nr : Nat), ∃ rest,
      GetHexDumpLine line ofs nr = intToHex7 (ofs + (nr : Int) * 16) ++ rest) ∧
    (∀ v : Int, 0 ≤ v → v < 16 ^ 7 → (intToHex7 v).length = 7) := by
  refine ⟨by decide, fun line ofs nr => ⟨[':', ' '] ++ lineHexChunks line ++ lineAscii line, ?_⟩,
    fun v h0 h7 => intToHex7_length v h0 h7⟩
  simp [GetHexDumpLine, List.append_assoc]

/-- Claim C3, witness for the amended claim's hypotheses. -/
theorem c3_witness :
    GetHexDump abcBytes 0 =
      "0000000: 4142 4344 4546 4748 494a 4b4c 4d4e 4f50 ABCDEFGHIJKLMNOP" ∧
    (intToHex7 291).length = 7 :=
  ⟨c3_theorem.1, c3_theorem.2.2 291 (by decide) (by decide)⟩

/-- Claim C2: code bug.  On the 20-byte buffer `"ABCDEFGHIJKLMNOPQRST"`
at origin 0 the code does produce 2 lines, but the second line is built
from `hexdata[breakpoint:]` with `breakpoint = len(hexdata)/32 = 1` used
as a character index: a 39-hex-character, nibble-shifted tail with an
empty pad, not the space-padded hex of the remaining 4 bytes, and its
ASCII column is not 12 padding dots plus the 4 real characters. -/
theorem c2_theorem :
    GetHexDump twentyBytes 0 =
      "0000000: 4142 4344 4546 4748 494a 4b4c 4d4e 4f50 ABCDEFGHIJKLMNOP\n0000010: 1424 3444 5464 7484 94a4 b4c4 d4e4 f505 .$4DTdt........." ∧
    GetHexDump twentyBytes 0 ≠
      "0000000: 4142 4344 4546 4748 494a 4b4c 4d4e 4f50 ABCDEFGHIJKLMNOP\n0000010: 5152 5354                               QRST............" := by
  refine ⟨by decide, by decide⟩

/-- Claim C6: within a rendered line, a hexlified byte shows up in the
ASCII column as the literal character exactly when its ordinal is
strictly between 31 and 128, and as `'.'` otherwise; in particular
`0x00` renders as `'.'` and `0x41` as `'A'`. -/
theorem c6_theorem (bytes : List Nat) (h16 : bytes.length = 16)
    (hb : ∀ b ∈ bytes, b < 256) :
    lineAscii (hexlify bytes) =
      bytes.map (fun b => if 31 < b ∧ b < 128 then Char.ofNat b else '.') ∧
    renderPair (toHexPair 0) = '.' ∧ renderPair (toHexPair 65) = 'A' := by
  refine ⟨?_, by decide, by decide⟩
  unfold lineAscii
  rw [← h16, ← range_map_getD (fun b => if 31 < b ∧ b < 128 then Char.ofNat b else '.') 0 bytes]
  apply map_congr_mem
  intro i hi
  rw [List.mem_range] at hi
  rw [hexlify_slice bytes i hi]
  exact renderPair_toHexPair _ (hb _ (getD_mem bytes i 0 hi))

/-- Claim C6, witness: the rule evaluated on a concrete 16-byte line
covering control bytes, boundary ordinals 31/32/127/128, and high bytes. -/
theorem c6_witness :
    lineAscii (hexlify demoBytes16) =
      demoBytes16.map (fun b => if 31 < b ∧ b < 128 then Char.ofNat b else '.') ∧
    renderPair (toHexPair 0) = '.' ∧ renderPair (toHexPair 65) = 'A' :=
  c6_theorem demoBytes16 (by decide) (by decide)

/-- Claim C1, counterexample: the read offset is NOT
`max(0, event.offset - before)`; with `event.offset = 5` and
`before = 10` the code leaves the offset at 5 (the `if offset - before
> 0` guard skips the subtraction without clamping to 0), and the dump
actually starts at byte 5 of the source, not byte 0. -/
theorem c1_counterexample :
    eventReadOffset 5 10 = 5 ∧
    eventReadOffset 5 10 ≠ max 0 (5 - 10 : Int) ∧
    GetEventData (some demoEvent) demoOpen 10 1 = GetHexDumpStream demoFile 5 1 ∧
    GetEventData (some demoEvent) demoOpen 10 1 ≠ GetHexDumpStream demoFile 0 1 := by
  refine ⟨by decide, by decide, rfl, by decide⟩

/-- Claim C1, amended: `GetEventData` reads from offset
`event.offset - before` when that difference is positive and from
`event.offset` unchanged otherwise; for non-negative `event.offset` and
`before` the read offset is never negative, and with
`event.offset = 5, before = 10` it is 5 (not 0). -/
theorem c1_theorem (e : EventObject) (ps : PathSpec) (f : List Nat)
    (openPFile : PathSpec → Except String (List Nat)) (before : Int) (length : Nat)
    (hps : e.pathspec = some ps) (hopen : openPFile ps = .ok f)
    (hoff : 0 ≤ e.offset.getD 0) (hbef : 0 ≤ before) :
    GetEventData (some e) openPFile before length =
      GetHexDumpStream f (eventReadOffset (e.offset.getD 0) before) length ∧
    eventReadOffset (e.offset.getD 0) before =
      (if before < e.offset.getD 0 then e.offset.getD 0 - before
       else e.offset.getD 0) ∧
    0 ≤ eventReadOffset (e.offset.getD 0) before ∧
    eventReadOffset 5 10 = 5 := by
  refine ⟨by simp [GetEventData, hps, hopen], ?_, ?_, by decide⟩
  · unfold eventReadOffset
    split
    · rw [if_pos (by omega)]
    · rw [if_neg (by omega)]
  · unfold eventReadOffset
    split <;> omega

/-- Claim C1, witness for the amended claim at the concrete clamped
example (`offset = 5`, `before = 10`, one 16-byte line). -/
theorem c1_witness :
    GetEventData (some demoEvent) demoOpen 10 1 =
      GetHexDumpStream demoFile (eventReadOffset (demoEvent.offset.getD 0) 10) 1 ∧
    eventReadOffset (demoEvent.offset.getD 0) 10 =
      (if (10 : Int) < demoEvent.offset.getD 0 then demoEvent.offset.getD 0 - 10
       else demoEvent.offset.getD 0) ∧
    0 ≤ eventReadOffset (demoEvent.offset.getD 0) 10 ∧
    eventReadOffset 5 10 = 5 :=
  c1_theorem demoEvent ⟨"demo"⟩ demoFile demoOpen 10 1 rfl rfl (by decide) (by decide)

/-- Claim C9: `GetEventData` is a total function into strings (nothing
propagates): an absent event yields empty text, an event without a
`pathspec` attribute yields empty text, and an `IOError` from the
byte-source opener yields the descriptive string
`'Error opening file: %s'` as the result value. -/
theorem c9_theorem :
    (∀ openPFile before length, GetEventData none openPFile before length = "") ∧
    (∀ e openPFile before length, e.pathspec = none →
      GetEventData (some e) openPFile before length = "") ∧
    (∀ e ps msg openPFile before length, e.pathspec = some ps →
      openPFile ps = .error msg →
      GetEventData (some e) openPFile before length = "Error opening file: " ++ msg) := by
  refine ⟨fun _ _ _ => rfl, ?_, ?_⟩
  · intro e op b l h
    simp [GetEventData, h]
  · intro e ps msg op b l h1 h2
    simp [GetEventData, h1, h2]

/-- Claim C9, witness: the three behaviours at concrete inputs. -/
theorem c9_witness :
    GetEventData none demoOpen 0 1 = "" ∧
    GetEventData (some noPsEvent) demoOpen 0 1 = "" ∧
    GetEventData (some demoEvent) demoOpenErr 0 1 = "Error opening file: boom" :=
  ⟨c9_theorem.1 demoOpen 0 1, c9_theorem.2.1 noPsEvent demoOpen 0 1 rfl,
   c9_theorem.2.2 demoEvent ⟨"demo"⟩ "boom" demoOpenErr 0 1 rfl rfl⟩

/-- Registry-order instantiation halts at the first failing entry. -/
lemma findClasses_error (pre post : List ParserClass) (bad : ParserClass) (e : String)
    (hbad : bad.construct = .error e)
    (hpre : ∀ c ∈ pre, ∃ p, c.construct = .ok p) :
    _FindClasses (pre ++ bad :: post) = .error e := by
  induction pre with
  | nil =>
    simp only [List.nil_append, _FindClasses, hbad]
  | cons c t ih =>
    obtain ⟨p, hp⟩ := hpre c (List.mem_cons_self c t)
    have ht : ∀ c' ∈ t, ∃ p', c'.construct = .ok p' :=
      fun c' hc' => hpre c' (List.mem_cons_of_mem c hc')
    simp only [List.cons_append, _FindClasses, hp, List.append_eq]
    rw [ih ht]

/-- Claim C4: exclusion takes precedence over inclusion.  If after plugin
resolution a name is in both the (extended) include list and the exclude
list, no parser with that lowercased name is in the `'all'` selection
returned by `FindAllParsers`. -/
theorem c4_theorem (filter_include filter_exclude : List String) (plugins : List Plugin)
    (registry : List ParserClass) (parsers : List Parser) (n : String)
    (hreg : _FindClasses registry = .ok parsers)
    (hinc : n ∈ extendedInclude filter_include filter_exclude plugins)
    (hexc : n ∈ filter_exclude) :
    FindAllParsers filter_include filter_exclude plugins registry =
      .ok [("all", parsers.filter
        (selectParser (extendedInclude filter_include filter_exclude plugins)
          filter_exclude))] ∧
    ∀ p ∈ parsers.filter
        (selectParser (extendedInclude filter_include filter_exclude plugins)
          filter_exclude),
      p.parser_name.toLower ≠ n := by
  constructor
  · simp [FindAllParsers, hreg]
  · intro p hp hcontra
    have hsel : selectParser (extendedInclude filter_include filter_exclude plugins)
        filter_exclude p = true := List.of_mem_filter hp
    unfold selectParser at hsel
    have hne : ¬ (filter_exclude = [] ∧
        extendedInclude filter_include filter_exclude plugins = []) := by
      rintro ⟨h1, _⟩
      rw [h1] at hexc
      exact List.not_mem_nil n hexc
    rw [if_neg hne, hcontra, if_pos hexc] at hsel
    exact Bool.false_ne_true hsel

/-- Claim C4, witness: plugin `skype` with parent `sqliteparser`; the
filter `"skype,-sqliteparser"` yields include `["skype"]` (extended with
`sqliteparser` by plugin resolution) and exclude `["sqliteparser"]`, and
the selection contains no parser named `sqliteparser`. -/
theorem c4_witness :
    FindAllParsers ["skype"] ["sqliteparser"] skypePlugins demoRegistry =
      .ok [("all", demoParsers.filter
        (selectParser (extendedInclude ["skype"] ["sqliteparser"] skypePlugins)
          ["sqliteparser"]))] ∧
    ∀ p ∈ demoParsers.filter
        (selectParser (extendedInclude ["skype"] ["sqliteparser"] skypePlugins)
          ["sqliteparser"]),
      p.parser_name.toLower ≠ "sqliteparser" :=
  c4_theorem ["skype"] ["sqliteparser"] skypePlugins demoRegistry demoParsers
    "sqliteparser" rfl (by decide) (by decide)

/-- Claim C5: with empty include and exclude lists every registered
parser is selected, in registry enumeration order, and any successful
`FindAllParsers` result contains the `'all'` key. -/
theorem c5_theorem (plugins : List Plugin) (registry : List ParserClass)
    (parsers : List Parser)
    (hreg : _FindClasses registry = .ok parsers) :
    FindAllParsers [] [] plugins registry = .ok [("all", parsers)] ∧
    ∀ filter_include filter_exclude m,
      FindAllParsers filter_include filter_exclude plugins registry = .ok m →
      m.lookup "all" ≠ none := by
  constructor
  · have hfi : extendedInclude [] [] plugins = [] := rfl
    have hsel : ∀ p, selectParser [] [] p = true := fun p => rfl
    simp only [FindAllParsers, hreg, hfi]
    rw [List.filter_eq_self.mpr (fun p _ => hsel p)]
  · intro fi fe m hm
    unfold FindAllParsers at hm
    rw [hreg] at hm
    injection hm with hm'
    rw [← hm']
    simp [List.lookup]

/-- Claim C5, witness: a two-parser registry with an empty filter. -/
theorem c5_witness :
    FindAllParsers [] [] skypePlugins demoRegistry = .ok [("all", demoParsers)] ∧
    ∀ filter_include filter_exclude m,
      FindAllParsers filter_include filter_exclude skypePlugins demoRegistry = .ok m →
      m.lookup "all" ≠ none :=
  c5_theorem skypePlugins demoRegistry demoParsers rfl

/-- Claim C7: a construction failure during registry enumeration is
fail-fast: `_FindClasses` returns the error itself (no partial list),
`FindAllParsers` propagates it unchanged, and the entries after the
failing one never matter (the result is the same for every tail of the
registry after the failing entry). -/
theorem c7_theorem (pre post : List ParserClass) (bad : ParserClass) (e : String)
    (hbad : bad.construct = .error e)
    (hpre : ∀ c ∈ pre, ∃ p, c.construct = .ok p) :
    _FindClasses (pre ++ bad :: post) = .error e ∧
    (∀ post', _FindClasses (pre ++ bad :: post') = .error e) ∧
    ∀ filter_include filter_exclude plugins,
      FindAllParsers filter_include filter_exclude plugins (pre ++ bad :: post) =
        .error e := by
  refine ⟨findClasses_error pre post bad e hbad hpre,
    fun post' => findClasses_error pre post' bad e hbad hpre,
    fun fi fe pl => ?_⟩
  unfold FindAllParsers
  rw [findClasses_error pre post bad e hbad hpre]

/-- Claim C7, witness: a good entry, then a failing entry, then a later
entry; enumeration and selection both surface the failure. -/
theorem c7_witness :
    _FindClasses (goodPre ++ badClass :: postClasses) = .error "boom" ∧
    FindAllParsers [] [] [] (goodPre ++ badClass :: postClasses) = .error "boom" := by
  have h := c7_theorem goodPre postClasses badClass "boom" rfl
    (by
      intro c hc
      rw [goodPre, List.mem_singleton] at hc
      subst hc
      exact ⟨⟨"good"⟩, rfl⟩)
  exact ⟨h.1, h.2.2 [] [] []⟩

/-- Claim C8, counterexample: an exclude argument that is supplied and
is not a tuple or list does NOT always produce an empty result — the
guard also requires truthiness, so the falsy string `''` slips through
and plugin resolution proceeds. -/
theorem c8_counterexample :
    GetParsersFromPlugins ["skype"] (PyVal.strV "") skypePlugins = ["sqliteparser"] ∧
    GetParsersFromPlugins ["skype"] (PyVal.strV "") skypePlugins ≠ [] := by
  refine ⟨rfl, by decide⟩

/-- Claim C8, amended: for every non-empty include list, if the exclude
argument is supplied, truthy, and not a tuple or list, the resolver
returns an empty list without raising; a falsy non-sequence exclude
(such as `''`) is ignored and resolution proceeds. -/
theorem c8_theorem (filter_strings : List String) (exclude_strings : PyVal)
    (plugins : List Plugin)
    (hne : filter_strings ≠ [])
    (htru : pyTruthy exclude_strings = true)
    (hshape : isTupleOrList exclude_strings = false) :
    GetParsersFromPlugins filter_strings exclude_strings plugins = [] := by
  unfold GetParsersFromPlugins
  rw [if_neg hne, if_pos]
  rw [htru, hshape]
  rfl

/-- Claim C8, witness: a truthy non-sequence exclude argument (the
string `'x'`) makes the resolver a no-op. -/
theorem c8_witness :
    GetParsersFromPlugins ["skype"] (PyVal.strV "x") skypePlugins = [] :=
  c8_theorem ["skype"] (PyVal.strV "x") skypePlugins (by decide) (by decide) (by decide)
